import Mathlib

/-!
Verification of `openstack_dashboard/usage/base.py` (Horizon usage/quota
reporting module).

The Python module is embedded shallowly:

* `datetime.datetime` / `datetime.date` values become the structures
  `PyDateTime` / `PyDate`; chronological comparison of valid values is
  mediated by a proleptic-Gregorian day number (`rataDie`) and a
  seconds-since-epoch measure (`toSeconds`), which agrees with Python's
  field-lexicographic ordering on valid dates.
* Methods of `BaseUsage` become functions.  Object attributes that a method
  reads or writes are passed in and returned explicitly
  (`UsageState`, `DateRangeState`); `timezone.now()` becomes the explicit
  `today` argument; external API calls (`get_usage_list`, the neutron
  listing calls) become `Except`-valued arguments, and
  `messages.error` / `exceptions.handle` append the displayed message to an
  explicit message list.
* Python dicts that the code only reads/writes pointwise (`self.summary`,
  `limits`) are modelled extensionally as `String → Option _` maps; a dict
  that the code iterates over (`get_summary()` results) is modelled as an
  association list whose keys are distinct.
-/

/-- Embeds `datetime.date`. -/
structure PyDate where
  year : Nat
  month : Nat
  day : Nat
deriving DecidableEq

/-- Embeds `datetime.datetime`; `utcAware` records whether a tzinfo (always
UTC in this module) is attached. -/
structure PyDateTime where
  year : Nat
  month : Nat
  day : Nat
  hour : Nat
  minute : Nat
  second : Nat
  utcAware : Bool
deriving DecidableEq

/-- Gregorian leap-year test, as in Python's `calendar.isleap`. -/
def isLeapYear (y : Nat) : Bool :=
  (y % 4 == 0 && y % 100 != 0) || y % 400 == 0

/-- Number of days in a month of the proleptic Gregorian calendar. -/
def daysInMonth (y m : Nat) : Nat :=
  if m = 2 then (if isLeapYear y then 29 else 28)
  else if m = 4 ∨ m = 6 ∨ m = 9 ∨ m = 11 then 30
  else 31

/-- Days in the months strictly before month `m` of year `y`. -/
def daysBeforeMonth (y m : Nat) : Nat :=
  (List.range (m - 1)).foldl (fun acc i => acc + daysInMonth y (i + 1)) 0

/-- Proleptic Gregorian day number (rata die) of `(y, m, d)`: the ordering it
induces on valid dates is Python's `datetime.date` ordering. -/
def rataDie (y m d : Nat) : Nat :=
  365 * (y - 1) + (y - 1) / 4 + (y - 1) / 400 + daysBeforeMonth y m + d
    - (y - 1) / 100

/-- Seconds measure of a `PyDateTime`; induces Python's chronological
comparison of (equally aware) `datetime` values. -/
def toSeconds (t : PyDateTime) : Nat :=
  rataDie t.year t.month t.day * 86400 + t.hour * 3600 + t.minute * 60 + t.second

/-- Python `<=` on `datetime` values (both naive-UTC or both UTC-aware). -/
def dtLe (a b : PyDateTime) : Prop := toSeconds a ≤ toSeconds b

/-- Python `<` on `datetime` values. -/
def dtLt (a b : PyDateTime) : Prop := toSeconds a < toSeconds b

instance (a b : PyDateTime) : Decidable (dtLe a b) := Nat.decLe _ _

instance (a b : PyDateTime) : Decidable (dtLt a b) := Nat.decLt _ _

/-- Python `<=` on `date` values. -/
def dateLe (a b : PyDate) : Prop :=
  rataDie a.year a.month a.day ≤ rataDie b.year b.month b.day

instance (a b : PyDate) : Decidable (dateLe a b) := Nat.decLe _ _

/-- Embeds `timezone.make_aware(dt, timezone.utc)`: attaches UTC tzinfo
without changing the fields. -/
def make_aware (t : PyDateTime) : PyDateTime := { t with utcAware := true }

/-- Embeds `timezone.make_naive(dt, timezone.utc)`: drops the tzinfo without
changing the fields. -/
def make_naive (t : PyDateTime) : PyDateTime := { t with utcAware := false }

/-- Embeds `BaseUsage.get_start`:
`make_aware(datetime(year, month, day, 0, 0, 0), utc)`. -/
def get_start (year month day : Nat) : PyDateTime :=
  make_aware ⟨year, month, day, 0, 0, 0, false⟩

/-- Embeds `BaseUsage.get_end`:
`make_aware(datetime(year, month, day, 23, 59, 59), utc)`. -/
def get_end (year month day : Nat) : PyDateTime :=
  make_aware ⟨year, month, day, 23, 59, 59, false⟩

/-- `date - timedelta(days=1)` on the embedded calendar. -/
def dateSubDay (d : PyDate) : PyDate :=
  if 2 ≤ d.day then ⟨d.year, d.month, d.day - 1⟩
  else if 2 ≤ d.month then ⟨d.year, d.month - 1, daysInMonth d.year (d.month - 1)⟩
  else ⟨d.year - 1, 12, 31⟩

/-- Embeds `BaseUsage.init_form` as a function of `datetime.date.today()`,
returning the `(self.start, self.end)` pair it stores and returns. -/
def init_form (today : PyDate) : PyDate × PyDate :=
  let first : PyDate := ⟨today.year, today.month, 1⟩
  if today.day < 5 then
    let e := dateSubDay first
    (⟨e.year, e.month, 1⟩, e)
  else
    (first, today)

/-- Every month has at least one day. -/
theorem one_le_daysInMonth (y m : Nat) : 1 ≤ daysInMonth y m := by
  unfold daysInMonth
  split
  · split <;> omega
  · split <;> omega

/-- `rataDie` is monotone in the day for a fixed year and month. -/
theorem rataDie_mono_day (y m : Nat) {d d' : Nat} (h : d ≤ d') :
    rataDie y m d ≤ rataDie y m d' := by
  unfold rataDie
  generalize daysBeforeMonth y m = B
  omega

/-- C5: for every valid calendar date, `get_start` is that day at 00:00:00
UTC-aware and `get_end` is the same day at 23:59:59 UTC-aware; `get_start ≤
get_end` and their difference is exactly 86399 seconds. -/
theorem get_start_le_get_end (y m d : Nat)
    (hy : 1 ≤ y) (hm1 : 1 ≤ m) (hm2 : m ≤ 12)
    (hd1 : 1 ≤ d) (hd2 : d ≤ daysInMonth y m) :
    get_start y m d = ⟨y, m, d, 0, 0, 0, true⟩ ∧
    get_end y m d = ⟨y, m, d, 23, 59, 59, true⟩ ∧
    dtLe (get_start y m d) (get_end y m d) ∧
    toSeconds (get_end y m d) - toSeconds (get_start y m d) = 86399 := by
  refine ⟨rfl, rfl, ?_, ?_⟩ <;>
  · simp only [dtLe, toSeconds, get_start, get_end, make_aware]
    omega

/-- Witness for C5 at the concrete date 2014-02-28. -/
theorem get_start_le_get_end_witness :
    get_start 2014 2 28 = ⟨2014, 2, 28, 0, 0, 0, true⟩ ∧
    get_end 2014 2 28 = ⟨2014, 2, 28, 23, 59, 59, true⟩ ∧
    dtLe (get_start 2014 2 28) (get_end 2014 2 28) ∧
    toSeconds (get_end 2014 2 28) - toSeconds (get_start 2014 2 28) = 86399 :=
  get_start_le_get_end 2014 2 28 (by decide) (by decide) (by decide)
    (by decide) (by decide)

/-- C6: on every valid current date, `init_form` returns a range with
`start ≤ end`; on days 1–4 of the month it returns the previous month in
full (first day of the previous month through its last day, the previous
month of January being December of the previous year), and otherwise it
returns the first day of the current month through today. -/
theorem init_form_range (today : PyDate)
    (hm1 : 1 ≤ today.month) (hm2 : today.month ≤ 12)
    (hd1 : 1 ≤ today.day) (hd2 : today.day ≤ daysInMonth today.year today.month) :
    dateLe (init_form today).1 (init_form today).2 ∧
    (today.day < 5 → 2 ≤ today.month →
      (init_form today).1 = ⟨today.year, today.month - 1, 1⟩ ∧
      (init_form today).2 =
        ⟨today.year, today.month - 1, daysInMonth today.year (today.month - 1)⟩) ∧
    (today.day < 5 → today.month = 1 →
      (init_form today).1 = ⟨today.year - 1, 12, 1⟩ ∧
      (init_form today).2 = ⟨today.year - 1, 12, 31⟩) ∧
    (5 ≤ today.day →
      (init_form today).1 = ⟨today.year, today.month, 1⟩ ∧
      (init_form today).2 = today) := by
  obtain ⟨y, m, d⟩ := today
  refine ⟨?_, ?_, ?_, ?_⟩
  · by_cases h5 : d < 5
    · by_cases hm : 2 ≤ m
      · have h1 : init_form ⟨y, m, d⟩ =
            (⟨y, m - 1, 1⟩, ⟨y, m - 1, daysInMonth y (m - 1)⟩) := by
          simp [init_form, dateSubDay, h5, hm]
        rw [h1]
        exact rataDie_mono_day y (m - 1) (one_le_daysInMonth y (m - 1))
      · have hm' : m = 1 := by simp at hm1 ⊢; omega
        subst hm'
        have h1 : init_form ⟨y, 1, d⟩ = (⟨y - 1, 12, 1⟩, ⟨y - 1, 12, 31⟩) := by
          simp [init_form, dateSubDay, h5]
        rw [h1]
        exact rataDie_mono_day (y - 1) 12 (show (1 : Nat) ≤ 31 by omega)
    · have h1 : init_form ⟨y, m, d⟩ = (⟨y, m, 1⟩, ⟨y, m, d⟩) := by
        simp [init_form, h5]
      rw [h1]
      exact rataDie_mono_day y m (show (1 : Nat) ≤ d from hd1)
  · intro h5 hm
    simp only at h5 hm
    simp [init_form, dateSubDay, h5, hm]
  · intro h5 hm
    simp only at h5 hm
    subst hm
    simp [init_form, dateSubDay, h5]
  · intro h5
    simp only at h5
    simp [init_form, show ¬ d < 5 by omega]

/-- Witness for C6 at the concrete dates 2014-03-02 (early-month branch) and
2014-03-15 (default branch). -/
theorem init_form_range_witness :
    ((init_form ⟨2014, 3, 2⟩).1 = ⟨2014, 2, 1⟩ ∧
     (init_form ⟨2014, 3, 2⟩).2 = ⟨2014, 2, 28⟩) ∧
    dateLe (init_form ⟨2014, 3, 15⟩).1 (init_form ⟨2014, 3, 15⟩).2 ∧
    (init_form ⟨2014, 3, 15⟩).1 = ⟨2014, 3, 1⟩ ∧
    (init_form ⟨2014, 3, 15⟩).2 = ⟨2014, 3, 15⟩ := by
  have h1 := init_form_range ⟨2014, 3, 2⟩ (by decide) (by decide) (by decide)
    (by decide)
  have h2 := init_form_range ⟨2014, 3, 15⟩ (by decide) (by decide) (by decide)
    (by decide)
  exact ⟨by simpa using h1.2.1 (by decide) (by decide),
    h2.1, (h2.2.2.2 (by decide)).1, (h2.2.2.2 (by decide)).2⟩

/-- A usage record as `summarize` consumes it: the association list of the
`(key, value)` items of its `get_summary()` dict (keys are distinct, as in
any Python dict). -/
structure UsageRecord where
  summ : List (String × Int)
deriving DecidableEq

/-- The attributes of a `BaseUsage` object that `summarize` reads or
writes, plus the list of messages displayed so far. -/
structure UsageState where
  summary : String → Option Int
  usage_list : List UsageRecord
  msgs : List String

/-- Python dict lookup on an association list (first binding wins; on
distinct keys there is at most one). -/
def lookupKey : List (String × Int) → String → Option Int
  | [], _ => none
  | (a, v) :: t, key => if key = a then some v else lookupKey t key

/-- One loop body iteration of `summarize`'s aggregation:
`summary.setdefault(key, 0); summary[key] += value`. -/
def dictAdd (s : String → Option Int) (k : String) (v : Int) :
    String → Option Int :=
  fun k2 => if k2 = k then some ((s k).getD 0 + v) else s k2

/-- The inner loop of `summarize`'s aggregation: fold one record's
`get_summary()` items into the summary dict. -/
def applyRecord (s : String → Option Int) (kvs : List (String × Int)) :
    String → Option Int :=
  kvs.foldl (fun acc kv => dictAdd acc kv.1 kv.2) s

/-- The outer loop of `summarize`'s aggregation over `usage_list`. -/
def aggregate (s : String → Option Int) (records : List (List (String × Int))) :
    String → Option Int :=
  records.foldl applyRecord s

/-- The guard/fetch phase of `BaseUsage.summarize` (the `if`/`elif` chain
before the aggregation loop).  `today` is `self.today`; `fetch` is the
external `get_usage_list` call, applied to the naive versions of the two
datetimes; the returned `Bool` records whether `get_usage_list` was
called. -/
def summarize_fetch (today : PyDateTime)
    (fetch : PyDateTime → PyDateTime → Except Unit (List UsageRecord))
    (start end_ : PyDateTime) (st : UsageState) : UsageState × Bool :=
  if dtLe start end_ ∧ dtLe start today then
    match fetch (make_naive start) (make_naive end_) with
    | .ok l => ({ st with usage_list := l }, true)
    | .error _ =>
      ({ st with msgs := st.msgs ++ ["Unable to retrieve usage information."] },
       true)
  else if dtLt end_ start then
    ({ st with msgs := st.msgs ++
        ["Invalid time period. The end date should be more recent than the start date."] },
     false)
  else if dtLt today start then
    ({ st with msgs := st.msgs ++
        ["Invalid time period. You are requesting data from the future which may not exist."] },
     false)
  else (st, false)

/-- Embeds `BaseUsage.summarize`: the guard/fetch phase followed by the
aggregation loop over `self.usage_list`. -/
def summarize (today : PyDateTime)
    (fetch : PyDateTime → PyDateTime → Except Unit (List UsageRecord))
    (start end_ : PyDateTime) (st : UsageState) : UsageState × Bool :=
  let p := summarize_fetch today fetch start end_ st
  ({ p.1 with
      summary := aggregate p.1.summary (p.1.usage_list.map UsageRecord.summ) },
   p.2)

/-- A key absent from the association list looks up to `none`. -/
theorem lookupKey_eq_none {kvs : List (String × Int)} {key : String}
    (h : key ∉ kvs.map Prod.fst) : lookupKey kvs key = none := by
  induction kvs with
  | nil => rfl
  | cons kv t ih =>
    obtain ⟨a, v⟩ := kv
    simp only [List.map_cons, List.mem_cons] at h
    push_neg at h
    simp only [lookupKey, if_neg h.1]
    exact ih h.2

/-- Pointwise evaluation of the inner aggregation loop on a record with
distinct keys. -/
theorem applyRecord_apply (kvs : List (String × Int))
    (s : String → Option Int) (k : String)
    (h : (kvs.map Prod.fst).Nodup) :
    applyRecord s kvs k =
      match lookupKey kvs k with
      | some v => some ((s k).getD 0 + v)
      | none => s k := by
  induction kvs generalizing s with
  | nil => rfl
  | cons kv t ih =>
    obtain ⟨a, v⟩ := kv
    simp only [List.map_cons, List.nodup_cons] at h
    have step : applyRecord s ((a, v) :: t) = applyRecord (dictAdd s a v) t := rfl
    rw [step, ih _ h.2]
    by_cases hk : k = a
    · subst hk
      rw [lookupKey_eq_none h.1]
      simp [lookupKey, dictAdd]
    · simp only [lookupKey, if_neg hk]
      cases hlk : lookupKey t k <;> simp [dictAdd, hk]

/-- If no record contains the key, the per-record contributions all vanish. -/
theorem sum_eq_zero_of_no_key {records : List (List (String × Int))} {k : String}
    (h : records.any (fun r => (lookupKey r k).isSome) = false) :
    (records.map (fun r => (lookupKey r k).getD 0)).sum = 0 := by
  induction records with
  | nil => rfl
  | cons r rs ih =>
    simp only [List.any_cons, Bool.or_eq_false_iff] at h
    have hr : lookupKey r k = none := by
      cases hlk : lookupKey r k with
      | none => rfl
      | some v => rw [hlk] at h; simp at h
    simp [hr, ih h.2]

/-- Pointwise evaluation of the whole aggregation loop: the summary entry of
`k` becomes its old contribution plus the sum of the per-record values of
`k`, provided some record mentions `k`, and stays unchanged otherwise. -/
theorem aggregate_apply (records : List (List (String × Int)))
    (s : String → Option Int) (k : String)
    (h : ∀ r ∈ records, (r.map Prod.fst).Nodup) :
    aggregate s records k =
      if records.any (fun r => (lookupKey r k).isSome)
      then some ((s k).getD 0 +
        (records.map (fun r => (lookupKey r k).getD 0)).sum)
      else s k := by
  induction records generalizing s with
  | nil => rfl
  | cons r rs ih =>
    have hr : (r.map Prod.fst).Nodup := h r (List.mem_cons_self r rs)
    have hrs : ∀ x ∈ rs, (x.map Prod.fst).Nodup :=
      fun x hx => h x (List.mem_cons_of_mem r hx)
    have step : aggregate s (r :: rs) = aggregate (applyRecord s r) rs := rfl
    rw [step, ih _ hrs, applyRecord_apply r s k hr]
    cases hlk : lookupKey r k with
    | none =>
      cases hany : rs.any (fun x => (lookupKey x k).isSome) <;>
        simp [List.any_cons, hlk, hany]
    | some v =>
      cases hany : rs.any (fun x => (lookupKey x k).isSome) with
      | false =>
        simp [List.any_cons, hlk, hany, sum_eq_zero_of_no_key hany]
      | true =>
        simp [List.any_cons, hlk, hany]
        omega

/-- C1: on a `BaseUsage` object whose summary dict starts empty, when the
date range passes the guards, `summarize` leaves the summary mapping each
key to the sum, over the records in the final `usage_list`, of that key's
value in the record's `get_summary()` items (a record without the key
contributes 0), and has no entry for keys occurring in no record. -/
theorem summarize_flat_sum (today : PyDateTime)
    (fetch : PyDateTime → PyDateTime → Except Unit (List UsageRecord))
    (start end_ : PyDateTime) (st : UsageState)
    (hsum : st.summary = fun _ => none)
    (hguard : dtLe start end_ ∧ dtLe start today)
    (hnodup : ∀ r ∈ (summarize today fetch start end_ st).1.usage_list,
      (r.summ.map Prod.fst).Nodup) :
    ∀ k, (summarize today fetch start end_ st).1.summary k =
      if ((summarize today fetch start end_ st).1.usage_list.map
            UsageRecord.summ).any (fun r => (lookupKey r k).isSome)
      then some ((((summarize today fetch start end_ st).1.usage_list.map
            UsageRecord.summ).map (fun r => (lookupKey r k).getD 0)).sum)
      else none := by
  intro k
  have husage : (summarize today fetch start end_ st).1.usage_list =
      (summarize_fetch today fetch start end_ st).1.usage_list := rfl
  rw [husage]
  have hn : ∀ r ∈ ((summarize_fetch today fetch start end_ st).1.usage_list.map
      UsageRecord.summ), (r.map Prod.fst).Nodup := by
    intro r hr
    obtain ⟨u, hu, rfl⟩ := List.mem_map.mp hr
    exact hnodup u hu
  have hpre : (summarize_fetch today fetch start end_ st).1.summary =
      st.summary := by
    simp only [summarize_fetch, if_pos hguard]
    cases fetch (make_naive start) (make_naive end_) <;> rfl
  show aggregate (summarize_fetch today fetch start end_ st).1.summary
      ((summarize_fetch today fetch start end_ st).1.usage_list.map
        UsageRecord.summ) k = _
  rw [aggregate_apply ((summarize_fetch today fetch start end_ st).1.usage_list.map
        UsageRecord.summ) _ k hn, hpre, hsum]
  simp

/-- Witness for C1: two records with summaries `{a: 2}` and `{a: 3, b: 1}`
aggregate to `a = 5`. -/
theorem summarize_flat_sum_witness :
    (summarize ⟨2, 3, 10, 0, 0, 0, true⟩
      (fun _ _ => Except.ok [⟨[("a", 2)]⟩, ⟨[("a", 3), ("b", 1)]⟩])
      ⟨2, 3, 9, 0, 0, 0, true⟩ ⟨2, 3, 10, 0, 0, 0, true⟩
      ⟨fun _ => none, [], []⟩).1.summary "a" = some 5 := by
  have h := summarize_flat_sum ⟨2, 3, 10, 0, 0, 0, true⟩
    (fun _ _ => Except.ok [⟨[("a", 2)]⟩, ⟨[("a", 3), ("b", 1)]⟩])
    ⟨2, 3, 9, 0, 0, 0, true⟩ ⟨2, 3, 10, 0, 0, 0, true⟩
    ⟨fun _ => none, [], []⟩ rfl ⟨by decide, by decide⟩ (by decide) "a"
  rw [h]
  decide

/-- C2: when `end < start`, `summarize` does not call `get_usage_list`,
displays the end-more-recent-than-start error and leaves `usage_list`
unchanged. -/
theorem summarize_end_before_start (today : PyDateTime)
    (fetch : PyDateTime → PyDateTime → Except Unit (List UsageRecord))
    (start end_ : PyDateTime) (st : UsageState)
    (h : dtLt end_ start) :
    (summarize today fetch start end_ st).2 = false ∧
    (summarize today fetch start end_ st).1.usage_list = st.usage_list ∧
    "Invalid time period. The end date should be more recent than the start date."
      ∈ (summarize today fetch start end_ st).1.msgs := by
  have h1 : ¬ (dtLe start end_ ∧ dtLe start today) := by
    intro hc
    have := hc.1
    unfold dtLe at this
    unfold dtLt at h
    omega
  have hfetch : summarize_fetch today fetch start end_ st =
      ({ st with msgs := st.msgs ++
          ["Invalid time period. The end date should be more recent than the start date."] },
       false) := by
    simp only [summarize_fetch, if_neg h1, if_pos h]
  refine ⟨?_, ?_, ?_⟩
  · show (summarize_fetch today fetch start end_ st).2 = false
    rw [hfetch]
  · show (summarize_fetch today fetch start end_ st).1.usage_list =
      st.usage_list
    rw [hfetch]
  · show _ ∈ (summarize_fetch today fetch start end_ st).1.msgs
    rw [hfetch]
    simp

/-- Witness for C2 at a concrete inverted range, with a non-empty prior
`usage_list` that stays untouched. -/
theorem summarize_end_before_start_witness :
    (summarize ⟨2, 3, 10, 0, 0, 0, true⟩ (fun _ _ => Except.ok [])
      ⟨2, 3, 9, 0, 0, 0, true⟩ ⟨2, 3, 8, 0, 0, 0, true⟩
      ⟨fun _ => none, [⟨[("a", 1)]⟩], []⟩).2 = false ∧
    (summarize ⟨2, 3, 10, 0, 0, 0, true⟩ (fun _ _ => Except.ok [])
      ⟨2, 3, 9, 0, 0, 0, true⟩ ⟨2, 3, 8, 0, 0, 0, true⟩
      ⟨fun _ => none, [⟨[("a", 1)]⟩], []⟩).1.usage_list = [⟨[("a", 1)]⟩] ∧
    "Invalid time period. The end date should be more recent than the start date."
      ∈ (summarize ⟨2, 3, 10, 0, 0, 0, true⟩ (fun _ _ => Except.ok [])
          ⟨2, 3, 9, 0, 0, 0, true⟩ ⟨2, 3, 8, 0, 0, 0, true⟩
          ⟨fun _ => none, [⟨[("a", 1)]⟩], []⟩).1.msgs :=
  summarize_end_before_start ⟨2, 3, 10, 0, 0, 0, true⟩ (fun _ _ => Except.ok [])
    ⟨2, 3, 9, 0, 0, 0, true⟩ ⟨2, 3, 8, 0, 0, 0, true⟩
    ⟨fun _ => none, [⟨[("a", 1)]⟩], []⟩ (by decide)

/-- C3 counterexample: the requested end date 0002-03-11 lies strictly after
today 0002-03-10, so the range reaches into the future, yet `summarize`
calls `get_usage_list` and displays no message at all. -/
theorem summarize_future_counterexample :
    dtLt (⟨2, 3, 10, 0, 0, 0, true⟩ : PyDateTime) ⟨2, 3, 11, 23, 59, 59, true⟩ ∧
    (summarize ⟨2, 3, 10, 0, 0, 0, true⟩ (fun _ _ => Except.ok [])
      ⟨2, 3, 10, 0, 0, 0, true⟩ ⟨2, 3, 11, 23, 59, 59, true⟩
      ⟨fun _ => none, [], []⟩).2 = true ∧
    (summarize ⟨2, 3, 10, 0, 0, 0, true⟩ (fun _ _ => Except.ok [])
      ⟨2, 3, 10, 0, 0, 0, true⟩ ⟨2, 3, 11, 23, 59, 59, true⟩
      ⟨fun _ => none, [], []⟩).1.msgs = [] :=
  ⟨by decide, by decide, by decide⟩

/-- C3 (amended): `summarize` rejects with the future-data message exactly
when the start (not merely the end) is after today: if `start ≤ end` and
`today < start`, it does not call `get_usage_list`, displays the
future-data error and leaves `usage_list` unchanged. -/
theorem summarize_future_start (today : PyDateTime)
    (fetch : PyDateTime → PyDateTime → Except Unit (List UsageRecord))
    (start end_ : PyDateTime) (st : UsageState)
    (hse : dtLe start end_) (hf : dtLt today start) :
    (summarize today fetch start end_ st).2 = false ∧
    (summarize today fetch start end_ st).1.usage_list = st.usage_list ∧
    "Invalid time period. You are requesting data from the future which may not exist."
      ∈ (summarize today fetch start end_ st).1.msgs := by
  have h1 : ¬ (dtLe start end_ ∧ dtLe start today) := by
    intro hc
    have := hc.2
    unfold dtLe at this
    unfold dtLt at hf
    omega
  have h2 : ¬ dtLt end_ start := by
    unfold dtLe at hse
    unfold dtLt
    omega
  have hfetch : summarize_fetch today fetch start end_ st =
      ({ st with msgs := st.msgs ++
          ["Invalid time period. You are requesting data from the future which may not exist."] },
       false) := by
    simp only [summarize_fetch, if_neg h1, if_neg h2, if_pos hf]
  refine ⟨?_, ?_, ?_⟩
  · show (summarize_fetch today fetch start end_ st).2 = false
    rw [hfetch]
  · show (summarize_fetch today fetch start end_ st).1.usage_list =
      st.usage_list
    rw [hfetch]
  · show _ ∈ (summarize_fetch today fetch start end_ st).1.msgs
    rw [hfetch]
    simp

/-- Witness for the amended C3 at a concrete all-future range. -/
theorem summarize_future_start_witness :
    (summarize ⟨2, 3, 10, 0, 0, 0, true⟩ (fun _ _ => Except.ok [])
      ⟨2, 3, 11, 0, 0, 0, true⟩ ⟨2, 3, 12, 0, 0, 0, true⟩
      ⟨fun _ => none, [], []⟩).2 = false ∧
    (summarize ⟨2, 3, 10, 0, 0, 0, true⟩ (fun _ _ => Except.ok [])
      ⟨2, 3, 11, 0, 0, 0, true⟩ ⟨2, 3, 12, 0, 0, 0, true⟩
      ⟨fun _ => none, [], []⟩).1.usage_list = [] ∧
    "Invalid time period. You are requesting data from the future which may not exist."
      ∈ (summarize ⟨2, 3, 10, 0, 0, 0, true⟩ (fun _ _ => Except.ok [])
          ⟨2, 3, 11, 0, 0, 0, true⟩ ⟨2, 3, 12, 0, 0, 0, true⟩
          ⟨fun _ => none, [], []⟩).1.msgs :=
  summarize_future_start ⟨2, 3, 10, 0, 0, 0, true⟩ (fun _ _ => Except.ok [])
    ⟨2, 3, 11, 0, 0, 0, true⟩ ⟨2, 3, 12, 0, 0, 0, true⟩
    ⟨fun _ => none, [], []⟩ (by decide) (by decide)

/-- The date form as `get_date_range` observes it, as built by `get_form`:
`is_bound` holds when the request GET data carries a `start` or `end`
parameter; `cleaned` holds the cleaned `(start, end)` dates exactly when
`is_valid()` is true (a Django unbound form never validates, so
`is_bound = false` entails `cleaned = none`). -/
structure DateForm where
  is_bound : Bool
  cleaned : Option (PyDate × PyDate)
deriving DecidableEq

/-- The attributes of a `BaseUsage` object that `get_date_range` reads or
writes (`hasattr` on `start`/`end` becomes `isSome`), plus the displayed
messages. -/
structure DateRangeState where
  start_attr : Option PyDateTime
  end_attr : Option PyDateTime
  msgs : List String
deriving DecidableEq

/-- Embeds `BaseUsage.get_date_range`.  When both attributes are already
set, the `if` body that assigns `args_start`/`args_end` is skipped and the
unconditional uses `self.get_start(*args_start)` / `self.get_end(*args_end)`
hit unassigned locals, so the call raises `UnboundLocalError`, embedded as
`Except.error ()`. -/
def get_date_range (today : PyDateTime) (form : DateForm)
    (st : DateRangeState) :
    Except Unit (DateRangeState × PyDateTime × PyDateTime) :=
  if st.start_attr.isNone || st.end_attr.isNone then
    let argsToday := (today.year, today.month, today.day)
    let r : (Nat × Nat × Nat) × (Nat × Nat × Nat) × List String :=
      match form.cleaned with
      | some (s, e) =>
        ((s.year, s.month, s.day), (e.year, e.month, e.day), st.msgs)
      | none =>
        if form.is_bound then
          (argsToday, argsToday,
           st.msgs ++ ["Invalid date format: Using today as default."])
        else
          (argsToday, argsToday, st.msgs)
    let s := get_start r.1.1 r.1.2.1 r.1.2.2
    let e := get_end r.2.1.1 r.2.1.2.1 r.2.1.2.2
    .ok (⟨some s, some e, r.2.2⟩, s, e)
  else
    .error ()

/-- C4: when the form is bound but does not validate and the `start`/`end`
attributes are not yet both set, `get_date_range` falls back to today for
both endpoints — it returns today at 00:00:00 UTC-aware and today at
23:59:59 UTC-aware, stores them, and appends the invalid-date-format
error message. -/
theorem get_date_range_bound_invalid (today : PyDateTime) (form : DateForm)
    (st : DateRangeState)
    (hb : form.is_bound = true) (hv : form.cleaned = none)
    (hattr : st.start_attr = none ∨ st.end_attr = none) :
    get_date_range today form st =
      .ok (⟨some ⟨today.year, today.month, today.day, 0, 0, 0, true⟩,
            some ⟨today.year, today.month, today.day, 23, 59, 59, true⟩,
            st.msgs ++ ["Invalid date format: Using today as default."]⟩,
           ⟨today.year, today.month, today.day, 0, 0, 0, true⟩,
           ⟨today.year, today.month, today.day, 23, 59, 59, true⟩) := by
  have hcond : (st.start_attr.isNone || st.end_attr.isNone) = true := by
    rcases hattr with h | h <;> simp [h]
  simp only [get_date_range, hcond, if_true, hv, hb]
  rfl

/-- Witness for C4: a bound invalid form on a fresh object. -/
theorem get_date_range_bound_invalid_witness :
    get_date_range ⟨2014, 3, 15, 12, 30, 0, true⟩ ⟨true, none⟩ ⟨none, none, []⟩ =
      .ok (⟨some ⟨2014, 3, 15, 0, 0, 0, true⟩,
            some ⟨2014, 3, 15, 23, 59, 59, true⟩,
            ["Invalid date format: Using today as default."]⟩,
           ⟨2014, 3, 15, 0, 0, 0, true⟩,
           ⟨2014, 3, 15, 23, 59, 59, true⟩) :=
  get_date_range_bound_invalid ⟨2014, 3, 15, 12, 30, 0, true⟩ ⟨true, none⟩
    ⟨none, none, []⟩ rfl rfl (Or.inl rfl)

/-- C10: when the `start` and `end` attributes are both already set (for
example by a prior `get_date_range` or `init_form` call), `get_date_range`
raises `UnboundLocalError` instead of returning the stored range, because
`args_start`/`args_end` are only assigned inside the skipped branch. -/
theorem get_date_range_attrs_set (today : PyDateTime) (form : DateForm)
    (st : DateRangeState) (a b : PyDateTime)
    (hs : st.start_attr = some a) (he : st.end_attr = some b) :
    get_date_range today form st = .error () := by
  simp [get_date_range, hs, he]

/-- Witness for C10: both attributes set, any form. -/
theorem get_date_range_attrs_set_witness :
    get_date_range ⟨2014, 3, 15, 12, 30, 0, true⟩ ⟨false, none⟩
      ⟨some ⟨2014, 3, 15, 0, 0, 0, true⟩,
       some ⟨2014, 3, 15, 23, 59, 59, true⟩, []⟩ = .error () :=
  get_date_range_attrs_set ⟨2014, 3, 15, 12, 30, 0, true⟩ ⟨false, none⟩
    ⟨some ⟨2014, 3, 15, 0, 0, 0, true⟩,
     some ⟨2014, 3, 15, 23, 59, 59, true⟩, []⟩
    ⟨2014, 3, 15, 0, 0, 0, true⟩ ⟨2014, 3, 15, 23, 59, 59, true⟩ rfl rfl

/-- The two keys of `resource_map` / `limit_name_map` in
`_get_neutron_usage` and `_set_neutron_limit`. -/
inductive NeutronResource
  | floatingip
  | security_group
deriving DecidableEq

/-- A resource maximum as stored in the limits dict: either the reported
finite limit or `float("inf")`. -/
inductive ResourceMax
  | finite (n : Int)
  | infinite
deriving DecidableEq

/-- `limit_name_map` of `_set_neutron_limit`. -/
def limit_name_map : NeutronResource → String
  | .floatingip => "maxTotalFloatingIps"
  | .security_group => "maxSecurityGroups"

/-- The `limit_name` entries of `resource_map` in `_get_neutron_usage`. -/
def usage_limit_name : NeutronResource → String
  | .floatingip => "totalFloatingIpsUsed"
  | .security_group => "totalSecurityGroupsUsed"

/-- The `message` entries of `resource_map` in `_get_neutron_usage`
(the security-group message carries the source's spelling). -/
def resource_message : NeutronResource → String
  | .floatingip => "Unable to retrieve floating IP addresses."
  | .security_group => "Unable to retrieve security gruops."

/-- Embeds `BaseUsage._set_neutron_limit`.  `neutron_quotas` is `None` when
the quotas extension is unsupported or `tenant_quota_get` failed; otherwise
it maps each resource to the `limit` attribute of its quota object, `none`
when `neutron_quotas.get(resource_name)` has no such object (the `getattr`
default `float("inf")` then applies). -/
def set_neutron_limit (limits : String → Option ResourceMax)
    (neutron_quotas : Option (NeutronResource → Option Int))
    (resource_name : NeutronResource) : String → Option ResourceMax :=
  let resource_max : ResourceMax :=
    match neutron_quotas with
    | none => .infinite
    | some nq =>
      match nq resource_name with
      | none => .infinite
      | some l => .finite l
  let resource_max :=
    if resource_max = ResourceMax.finite (-1) then .infinite else resource_max
  fun k => if k = limit_name_map resource_name then some resource_max
           else limits k

/-- Embeds `BaseUsage._get_neutron_usage`.  `apiResult` is the outcome of
the external resource-listing call; the second component of the result is
the list of messages displayed. -/
def get_neutron_usage {α : Type} (limits : String → Option Nat)
    (apiResult : Except Unit (List α)) (resource_name : NeutronResource) :
    (String → Option Nat) × List String :=
  let r : Nat × List String :=
    match apiResult with
    | .ok l => (l.length, [])
    | .error _ => (0, [resource_message resource_name])
  (fun k => if k = usage_limit_name resource_name then some r.1 else limits k,
   r.2)

/-- C7: for each neutron resource, `_set_neutron_limit` stores positive
infinity as the resource maximum when quota information is unavailable
(`neutron_quotas` is `None`, or the quota object lacks the resource) or the
reported limit is -1, and stores the reported limit otherwise. -/
theorem set_neutron_limit_unlimited (limits : String → Option ResourceMax)
    (neutron_quotas : Option (NeutronResource → Option Int))
    (r : NeutronResource) :
    (neutron_quotas = none →
      set_neutron_limit limits neutron_quotas r (limit_name_map r) =
        some ResourceMax.infinite) ∧
    (∀ nq, neutron_quotas = some nq → nq r = none →
      set_neutron_limit limits neutron_quotas r (limit_name_map r) =
        some ResourceMax.infinite) ∧
    (∀ nq, neutron_quotas = some nq → nq r = some (-1) →
      set_neutron_limit limits neutron_quotas r (limit_name_map r) =
        some ResourceMax.infinite) ∧
    (∀ nq l, neutron_quotas = some nq → nq r = some l → l ≠ -1 →
      set_neutron_limit limits neutron_quotas r (limit_name_map r) =
        some (ResourceMax.finite l)) := by
  refine ⟨?_, ?_, ?_, ?_⟩
  · rintro rfl
    simp [set_neutron_limit]
  · rintro nq rfl hr
    simp [set_neutron_limit, hr]
  · rintro nq rfl hr
    simp [set_neutron_limit, hr]
  · rintro nq l rfl hr hl
    simp [set_neutron_limit, hr, hl]

/-- Witness for C7: no quota object yields infinity for floating IPs; a
reported limit of 7 is stored as is. -/
theorem set_neutron_limit_unlimited_witness :
    set_neutron_limit (fun _ => none) none NeutronResource.floatingip
      "maxTotalFloatingIps" = some ResourceMax.infinite ∧
    set_neutron_limit (fun _ => none) (some (fun _ => some 7))
      NeutronResource.security_group "maxSecurityGroups" =
      some (ResourceMax.finite 7) :=
  ⟨(set_neutron_limit_unlimited (fun _ => none) none
      NeutronResource.floatingip).1 rfl,
   (set_neutron_limit_unlimited (fun _ => none) (some (fun _ => some 7))
      NeutronResource.security_group).2.2.2 (fun _ => some 7) 7 rfl rfl
      (by decide)⟩

/-- C8: for each neutron resource, `_get_neutron_usage` sets the limits
entry for the resource in every case — to the listed length on success and
to 0 on failure — and on failure displays the resource's message. -/
theorem get_neutron_usage_sets_entry {α : Type}
    (limits : String → Option Nat) (apiResult : Except Unit (List α))
    (r : NeutronResource) :
    (get_neutron_usage limits apiResult r).1 (usage_limit_name r) =
      some (match apiResult with
            | .ok l => l.length
            | .error _ => 0) ∧
    (apiResult = .error () →
      resource_message r ∈ (get_neutron_usage limits apiResult r).2) := by
  constructor
  · cases apiResult <;> simp [get_neutron_usage]
  · rintro rfl
    simp [get_neutron_usage]

/-- Witness for C8: a failing listing call records 0 used floating IPs and
displays the floating-IP message; a successful call records the length. -/
theorem get_neutron_usage_sets_entry_witness :
    (get_neutron_usage (α := Nat) (fun _ => none) (Except.error ())
      NeutronResource.floatingip).1 "totalFloatingIpsUsed" = some 0 ∧
    "Unable to retrieve floating IP addresses." ∈
      (get_neutron_usage (α := Nat) (fun _ => none) (Except.error ())
        NeutronResource.floatingip).2 ∧
    (get_neutron_usage (fun _ => none) (Except.ok [3, 5])
      NeutronResource.security_group).1 "totalSecurityGroupsUsed" = some 2 :=
  ⟨(get_neutron_usage_sets_entry (α := Nat) (fun _ => none) (Except.error ())
      NeutronResource.floatingip).1,
   (get_neutron_usage_sets_entry (α := Nat) (fun _ => none) (Except.error ())
      NeutronResource.floatingip).2 rfl,
   (get_neutron_usage_sets_entry (fun _ => none) (Except.ok [3, 5])
      NeutronResource.security_group).1⟩

/-- The configuration shared by `BaseCsvResponse` and
`BaseCsvStreamingResponse` through `CsvDataMixin`: the optional `columns`
attribute, the `encode` method, and the `csv` library's formatting of one
row written to the underlying buffer (`fmt` includes the line terminator).
Both classes build the same mixin, so `enc` and `fmt` are common. -/
structure CsvConfig where
  columns : Option (List String)
  enc : String → String
  fmt : List String → String

/-- Lookup in `dict(zip(keys, vals))` (a later duplicate key overwrites an
earlier one), with `none` for a missing key, as `DictWriter` consults the
row dict with its `restval` default. -/
def lookupLast (pairs : List (String × String)) (key : String) :
    Option String :=
  match pairs with
  | [] => none
  | (a, v) :: t =>
    match lookupLast t key with
    | some w => some w
    | none => if key = a then some v else none

/-- Embeds `CsvDataMixin.write_csv_header`: with columns defined, the
`DictWriter` (fieldnames `map(encode, columns)`) writes its field names as
a row; without columns nothing is written. -/
def write_csv_header (c : CsvConfig) : String :=
  match c.columns with
  | some cols => c.fmt (cols.map c.enc)
  | none => ""

/-- Embeds `CsvDataMixin.write_csv_row`: with columns defined, the row is
`dict(zip(fieldnames, map(encode, args)))` written by the `DictWriter` in
fieldname order (missing fields get the empty `restval`); without columns
the encoded args are written directly. -/
def write_csv_row (c : CsvConfig) (row : List String) : String :=
  match c.columns with
  | some cols =>
    let fns := cols.map c.enc
    c.fmt (fns.map (fun f => (lookupLast (fns.zip (row.map c.enc)) f).getD ""))
  | none => c.fmt (row.map c.enc)

/-- What `self.out.write(self.encode(self.header))` contributes: nothing
when no template was given (`header is None`) or the rendered header is
falsy (empty). -/
def headerText (c : CsvConfig) (header : Option String) : String :=
  match header with
  | some h => if h = "" then "" else c.enc h
  | none => ""

/-- The row loop of `BaseCsvResponse.__init__`, accumulating the buffer. -/
def writeRows (c : CsvConfig) : List (List String) → String → String
  | [], acc => acc
  | r :: rs, acc => writeRows c rs (acc ++ write_csv_row c r)

/-- Embeds the final `self.content` of `BaseCsvResponse.__init__`: encoded
header, then the CSV column-title row, then one encoded CSV row per data
row. -/
def baseCsvResponseContent (c : CsvConfig) (header : Option String)
    (rows : List (List String)) : String :=
  writeRows c rows (headerText c header ++ write_csv_header c)

/-- Embeds the chunks yielded by `BaseCsvStreamingResponse.get_content`:
the buffer after the header writes, then the buffer after each row (the
buffer is truncated at every yield). -/
def baseCsvStreamingChunks (c : CsvConfig) (header : Option String)
    (rows : List (List String)) : List String :=
  (headerText c header ++ write_csv_header c) :: rows.map (write_csv_row c)

/-- Concatenation of the yielded chunks. -/
def concatChunks : List String → String
  | [] => ""
  | x :: xs => x ++ concatChunks xs

/-- The accumulated row loop is the accumulator followed by the
concatenated per-row chunks. -/
theorem writeRows_eq_append (c : CsvConfig) (rows : List (List String)) :
    ∀ acc : String,
      writeRows c rows acc = acc ++ concatChunks (rows.map (write_csv_row c)) := by
  induction rows with
  | nil => intro acc; exact (String.append_empty acc).symm
  | cons r rs ih =>
    intro acc
    show writeRows c rs (acc ++ write_csv_row c r) = _
    rw [ih (acc ++ write_csv_row c r)]
    exact String.append_assoc acc (write_csv_row c r) _

/-- C9: for every identical configuration (same rendered header or none,
same columns or none, same sequence of rows), the concatenation of the
chunks yielded by `BaseCsvStreamingResponse.get_content` equals the
content produced by `BaseCsvResponse`. -/
theorem csv_streaming_eq_response (c : CsvConfig) (header : Option String)
    (rows : List (List String)) :
    concatChunks (baseCsvStreamingChunks c header rows) =
      baseCsvResponseContent c header rows := by
  show (headerText c header ++ write_csv_header c) ++
      concatChunks (rows.map (write_csv_row c)) =
    writeRows c rows (headerText c header ++ write_csv_header c)
  rw [writeRows_eq_append]
